import Mathlib

set_option linter.unusedVariables false

/-!
Verification of the ingestion, flattening and filtering core of the
Sophos SIEM Log Viewer (`LogViewer-v11.3.py`) against its design
specification.  Python values parsed by `json.loads` are modelled by the
inductive `JVal`; `json.loads` itself (an external library function) is
modelled as an abstract oracle `jloads : String → Option JVal`, `none`
standing for a `JSONDecodeError`.  Numbers are modelled as integers; no
claim depends on float formatting.
-/

namespace LogViewer

mutual

/-- A parsed JSON value (the result of Python's `json.loads`).  Arrays and
objects carry their own list types so that every recursion over a value is
structural. -/
inductive JVal : Type where
  | null : JVal
  | bool : Bool → JVal
  | num : Int → JVal
  | str : String → JVal
  | arr : JArr → JVal
  | obj : JObj → JVal

/-- The elements of a JSON array. -/
inductive JArr : Type where
  | nil : JArr
  | cons : JVal → JArr → JArr

/-- The key/value entries of a JSON object (a Python dict). -/
inductive JObj : Type where
  | nil : JObj
  | cons : String → JVal → JObj → JObj

end

/-- The elements of a JSON array as an ordinary list. -/
def JArr.toList : JArr → List JVal
  | .nil => []
  | .cons v rest => v :: rest.toList

/-- Build a JSON array from a list (for concrete inputs). -/
def JArr.ofList : List JVal → JArr
  | [] => .nil
  | v :: rest => .cons v (JArr.ofList rest)

/-- The entries of a JSON object as an ordinary pair list. -/
def JObj.toList : JObj → List (String × JVal)
  | .nil => []
  | .cons k v rest => (k, v) :: rest.toList

/-- Build a JSON object from a pair list (for concrete inputs). -/
def JObj.ofList : List (String × JVal) → JObj
  | [] => .nil
  | (k, v) :: rest => .cons k v (JObj.ofList rest)

/-- `isinstance(item, dict)` -/
def JVal.isObj : JVal → Bool
  | .obj _ => true
  | _ => false

/-- Python whitespace recognised by `str.strip()` / `str.lower()` handling
(ASCII whitespace; the log files at issue are ASCII JSON). -/
def isPySpace (c : Char) : Bool :=
  c == ' ' || c == '\t' || c == '\n' || c == '\r' || c == '\x0b' || c == '\x0c'

/-- Python `str.strip()` on the character list. -/
def pyStripL (s : List Char) : List Char :=
  ((s.dropWhile isPySpace).reverse.dropWhile isPySpace).reverse

/-- Python `str.strip()`. -/
def pyStrip (s : String) : String := ⟨pyStripL s.data⟩

/-- Split a character list at newline characters (keeping empty pieces). -/
def splitNl : List Char → List (List Char)
  | [] => [[]]
  | c :: rest =>
      let r := splitNl rest
      if c == '\n' then [] :: r
      else
        match r with
        | [] => [[c]]
        | l :: ls => (c :: l) :: ls

/-- Python `str.splitlines()` for strings with no trailing newline
(`load_json` always strips the content first, so that is the only case
the program exercises); `"".splitlines() == []`. -/
def pySplitlines (s : String) : List String :=
  if s = "" then [] else (splitNl s.data).map String.mk

/-- Python `str.lower()` (ASCII case folding). -/
def pyLower (s : String) : String := ⟨s.data.map Char.toLower⟩

/-- `needle` starts the list `hay`. -/
def startsWithL : List Char → List Char → Bool
  | [], _ => true
  | _ :: _, [] => false
  | a :: as, b :: bs => a == b && startsWithL as bs

/-- Python's substring test `needle in hay`. -/
def containsSub (needle : List Char) : List Char → Bool
  | [] => startsWithL needle []
  | c :: rest => startsWithL needle (c :: rest) || containsSub needle rest

/-- Python `needle in hay` on strings. -/
def pyIn (needle hay : String) : Bool := containsSub needle.data hay.data

/-! ## The raw-data cache

`raw_data_cache` is a Python dict keyed by file path; modelled as an
association list with unique keys (dict semantics via the operations). -/

/-- The global `raw_data_cache` dictionary. -/
abbrev Cache : Type := List (String × List JVal)

/-- Dict lookup: `raw_data_cache[p]` / `p in raw_data_cache` (dict keys
are unique, so looking at the first binding is exact). -/
def cacheGet : Cache → String → Option (List JVal)
  | [], _ => none
  | kv :: rest, p => if kv.1 == p then some kv.2 else cacheGet rest p

/-- Dict assignment `raw_data_cache[p] = v`: replace the binding in place,
or append a new one. -/
def cacheSet : Cache → String → List JVal → Cache
  | [], p, v => [(p, v)]
  | kv :: rest, p, v => if kv.1 == p then (p, v) :: rest else kv :: cacheSet rest p v

/-- Lines 57–60 of the source: `raw_data_cache[p].extend(v)` when the path
is present, else `raw_data_cache[p] = v`. -/
def cacheExtend : Cache → String → List JVal → Cache
  | [], p, v => [(p, v)]
  | kv :: rest, p, v =>
      if kv.1 == p then (kv.1, kv.2 ++ v) :: rest else kv :: cacheExtend rest p v

/-! ## `load_json`

Faithful translation of `load_json` (lines 36–96).  File I/O is abstracted
away: the function receives the file's raw text.  The progress callback is
observational only (the spec says so as well) and is omitted.  The Python
function mutates the global `raw_data_cache` and raises `ValueError` on
any failure; here it returns the `Except` outcome paired with the cache
after the call (on failure the cache is returned unchanged, as the Python
exception is raised before any cache mutation). -/

/-- The shared per-line loop of `load_json` (lines 48–53 and 81–86):
strip each line, skip empty lines, `json.loads` each non-empty line
(failure aborts the whole load), keep only dict results. -/
def parseLines (jloads : String → Option JVal) : List String → Option (List JVal)
  | [] => some []
  | l :: ls =>
      let l := pyStrip l
      if l = "" then parseLines jloads ls
      else
        match jloads l with
        | none => none
        | some item =>
            match parseLines jloads ls with
            | none => none
            | some rest => if item.isObj then some (item :: rest) else some rest

/-- `load_json(file_path, …, last_record_count, partial_load)` where `raw`
is the text read from the file.  Returns (outcome, cache after call). -/
def load_json (jloads : String → Option JVal) (cache : Cache) (file_path : String)
    (raw : String) (last_record_count : Nat) (partial_load : Bool) :
    Except String (List JVal × Nat) × Cache :=
  let content := pyStrip raw
  let lines := pySplitlines content
  let total_lines := lines.length
  if partial_load && last_record_count > 0 then
    -- Only process new lines
    match parseLines jloads (lines.drop last_record_count) with
    | none => (.error "Error loading JSON: invalid JSON on a new line", cache)
    | some data => (.ok (data, total_lines), cacheExtend cache file_path data)
  else
    -- Full load
    match jloads content with
    | some d =>
        match d with
        | .arr items =>
            if (JArr.toList items).all JVal.isObj then
              (.ok (JArr.toList items, total_lines), cacheSet cache file_path (JArr.toList items))
            else
              (.error "Error loading JSON: JSON items must be dictionaries.", cache)
        | .obj fields =>
            -- Wrap single dict in a list
            (.ok ([JVal.obj fields], total_lines), cacheSet cache file_path [JVal.obj fields])
        | _ =>
            (.error "Error loading JSON: JSON must be a list of dictionaries or a single dictionary.", cache)
    | none =>
        -- Handle JSON Lines format
        match parseLines jloads lines with
        | none => (.error "Error loading JSON: invalid JSON on a line", cache)
        | some data =>
            if data.isEmpty then
              (.error "Error loading JSON: No valid JSON objects found.", cache)
            else
              (.ok (data, total_lines), cacheSet cache file_path data)

/-! ## Python `dict(...)` construction

`flatten_dict` ends with `dict(items)`: duplicate keys collapse, the last
value wins, and a key's position is its first occurrence (Python ≥ 3.7). -/

/-- One step of building a dict from a pair list: `d[k] = v`. -/
def pyDictInsert (acc : List (String × JVal)) (k : String) (v : JVal) :
    List (String × JVal) :=
  if acc.any (fun kv => kv.1 == k) then
    acc.map (fun kv => if kv.1 == k then (k, v) else kv)
  else acc ++ [(k, v)]

/-- Python `dict(items)` for a list of key/value pairs. -/
def pyDict (items : List (String × JVal)) : List (String × JVal) :=
  items.foldl (fun acc kv => pyDictInsert acc kv.1 kv.2) []

/-! ## `flatten_dict` (lines 99–107) -/

mutual

/-- The contribution of one dict entry to the `items` list of
`flatten_dict`: a nested dict value goes through a full inner
`flatten_dict` (hence an inner `dict(...)`) whose `.items()` are spliced
in; any other value is a single `(new_key, v)` pair. -/
def flattenEntry (sep : String) (new_key : String) : JVal → List (String × JVal)
  | .obj fields => pyDict (flattenItems sep new_key fields)
  | v => [(new_key, v)]

/-- The `items` list accumulated by `flatten_dict(d, parent_key, sep)`
before the final `dict(items)`. -/
def flattenItems (sep : String) (parent_key : String) : JObj → List (String × JVal)
  | .nil => []
  | .cons k v rest =>
      flattenEntry sep (if parent_key ≠ "" then parent_key ++ sep ++ k else k) v
        ++ flattenItems sep parent_key rest

end

/-- `flatten_dict(d, parent_key, sep)` (defaults in the source:
`parent_key=''`, `sep='.'`). -/
def flatten_dict (d : JObj) (parent_key : String) (sep : String) :
    List (String × JVal) :=
  pyDict (flattenItems sep parent_key d)

/-! ## Python `str()` of parsed JSON values

`filter_data` and the row renderer call `str(...)` on values taken from
parsed JSON.  For strings `str` is the identity; for every other such
value it agrees with `repr` (`True`/`False`/`None`, decimal integers,
bracketed lists, braced dicts with quoted keys). -/

/-- A single-quote character as a string. -/
def squote : String := String.singleton (Char.ofNat 39)

mutual

/-- Python `repr()` of a parsed-JSON value (string escaping elided). -/
def pyRepr : JVal → String
  | .null => "None"
  | .bool true => "True"
  | .bool false => "False"
  | .num n => toString n
  | .str s => squote ++ s ++ squote
  | .arr xs => "[" ++ ", ".intercalate (pyReprList xs) ++ "]"
  | .obj fs => "\x7b" ++ ", ".intercalate (pyReprFields fs) ++ "\x7d"

/-- `repr` of each list element. -/
def pyReprList : JArr → List String
  | .nil => []
  | .cons x xs => pyRepr x :: pyReprList xs

/-- `repr` of each dict entry, `'key': value`. -/
def pyReprFields : JObj → List String
  | .nil => []
  | .cons k v fs => (squote ++ k ++ squote ++ ": " ++ pyRepr v) :: pyReprFields fs

end

/-- Python `str()` of a parsed-JSON value. -/
def pyStr : JVal → String
  | .str s => s
  | v => pyRepr v

/-! ## `filter_data` (lines 110–122) -/

/-- `str(item.get(col, ''))`: the stringified value of a column, the empty
string when the column is missing. -/
def pyGetStr (item : List (String × JVal)) (col : String) : String :=
  match List.find? (fun kv => kv.1 == col) item with
  | some kv => pyStr kv.2
  | none => ""

/-- The inner loop of `filter_data`: `item` survives every column filter
(`match` stays `True`). -/
def matchesFilters (filters : List (String × String)) (item : List (String × JVal)) :
    Bool :=
  filters.all fun cf =>
    if cf.2 ≠ "" then pyIn (pyLower cf.2) (pyLower (pyGetStr item cf.1))
    else true

/-- `filter_data(data, filters, desired_columns)`; as in the source,
`desired_columns` is accepted and ignored. -/
def filter_data (data : List (List (String × JVal))) (filters : List (String × String))
    (desired_columns : List String) : List (List (String × JVal)) :=
  data.filter (matchesFilters filters)

/-! ## `refresh_table` (lines 162–256), reduced to its observable surface

Tk widget manipulation is presentation; what the claims are about is which
user-visible surfaces a refresh touches: the status label, modal message
boxes, the diagnostic log, and the number of rows inserted. -/

/-- A user-visible effect of one `refresh_table` call. -/
inductive UIEffect : Type where
  | statusText : String → UIEffect
  | modalError : String → UIEffect
  | logEntry : String → UIEffect
  | insertRows : Nat → UIEffect

/-- `e` is a modal message box. -/
def UIEffect.isModal : UIEffect → Bool
  | .modalError _ => true
  | _ => false

/-- The dict entries of a record; every record produced by `load_json` is
a dict (each branch checks `isinstance(item, dict)`), so the `.nil`
default for non-dicts is never reached by the program. -/
def recFields : JVal → JObj
  | .obj fs => fs
  | _ => .nil

/-- `refresh_table(tree, file_path, …, is_auto_refresh, …, record_count)`:
loads (partial iff auto-refresh), flattens, filters and inserts rows; on
any failure the `except` branch (lines 252–256) sets the status label,
shows a modal error box and writes a log entry — unconditionally on
`is_auto_refresh`.  Returns the effect list and the cache after the call. -/
def refresh_table (jloads : String → Option JVal) (cache : Cache) (file_path : String)
    (raw : String) (filters : List (String × String)) (desired_columns : List String)
    (is_auto_refresh : Bool) (record_count : Nat) : List UIEffect × Cache :=
  match load_json jloads cache file_path raw record_count is_auto_refresh with
  | (.error e, cache') =>
      ([.statusText ("Error: " ++ e),
        .modalError ("Failed to load JSON from " ++ file_path ++ ": " ++ e),
        .logEntry ("Failed to refresh table for " ++ file_path ++ ": " ++ e)], cache')
  | (.ok (data, new_record_count), cache') =>
      if data.isEmpty && !is_auto_refresh then
        ([.statusText "No data to display.",
          .logEntry ("No data found in " ++ file_path)], cache')
      else
        let flattened_data := data.map (fun item => flatten_dict (recFields item) "" ".")
        let filtered_data := filter_data flattened_data filters desired_columns
        ([.insertRows filtered_data.length,
          .statusText ("Data loaded successfully. " ++ toString new_record_count ++ " records total."),
          .logEntry ("Table refreshed for " ++ file_path)], cache')

/-! ## Specification-side definitions

These follow the wording of the design spec, not the source; the claims
compare the code's behaviour against them. -/

/-- Spec 4.1 step 3 / 4.2: the line-oriented per-line contract, stated the
spec's way — if every non-empty line parses as JSON, the result is the
mapping-typed parses of the non-empty lines in order; otherwise the load
fails (`none`). -/
def specPerLine (jloads : String → Option JVal) (ls : List String) : Option (List JVal) :=
  if ls.all (fun l => pyStrip l = "" || (jloads (pyStrip l)).isSome) then
    some (((ls.map pyStrip).filter (fun l => l ≠ "")).filterMap
      (fun l => (jloads l).bind (fun v => if v.isObj then some v else none)))
  else none

/-- Spec 4.4: a record survives the filter when, for every column whose
filter string is non-empty, the lowered string form of the record's value
for that column (missing column = empty string) contains the lowered
filter substring. -/
def filterSpecKeeps (filters : List (String × String)) (item : List (String × JVal)) :
    Prop :=
  ∀ cf ∈ filters, cf.2 ≠ "" →
    pyIn (pyLower cf.2) (pyLower (pyGetStr item cf.1)) = true

mutual

/-- The leaf paths (as key sequences) below one value of a record. -/
def leafPathsEntry (path : List String) : JVal → List (List String)
  | .obj fields => leafPathsFields path fields
  | _ => [path]

/-- The leaf paths (as key sequences) of a record's entries: a leaf is any
non-mapping value (lists included). -/
def leafPathsFields (path : List String) : JObj → List (List String)
  | .nil => []
  | .cons k v rest => leafPathsEntry (path ++ [k]) v ++ leafPathsFields path rest

end

/-- The leaf paths of a record, root first. -/
def leafPaths (d : JObj) : List (List String) := leafPathsFields [] d

mutual

/-- The dotted key string of every leaf path below one value. -/
def leafKeysEntry (sep : String) (key : String) : JVal → List String
  | .obj fields => leafKeysFields sep key fields
  | _ => [key]

/-- The dotted key strings of a record's leaf paths, nested keys joined
with `sep` as the spec's flattener contract describes. -/
def leafKeysFields (sep : String) (parent : String) : JObj → List String
  | .nil => []
  | .cons k v rest =>
      leafKeysEntry sep (if parent ≠ "" then parent ++ sep ++ k else k) v
        ++ leafKeysFields sep parent rest

end

mutual

/-- No list-valued branch anywhere below this value. -/
def noListsVal : JVal → Bool
  | .arr _ => false
  | .obj fields => noListsObj fields
  | _ => true

/-- No list-valued branch anywhere in this record. -/
def noListsObj : JObj → Bool
  | .nil => true
  | .cons _ v rest => noListsVal v && noListsObj rest

end

/-- The outcome is an error. -/
def isErr {α : Type} : Except String α → Bool
  | .error _ => true
  | .ok _ => false

/-- The keys of an association list, in order. -/
def keysOf (l : List (String × JVal)) : List String := l.map Prod.fst

/-! ## Concrete inputs used by witnesses and counterexamples -/

/-- A `json.loads` oracle on which every parse fails. -/
def jlNone : String → Option JVal := fun _ => none

/-- The record `{"a": 1}`. -/
def recA : JVal := .obj (JObj.ofList [("a", .num 1)])

/-- The record `{"b": 2}`. -/
def recB : JVal := .obj (JObj.ofList [("b", .num 2)])

/-- A record cached by an earlier load. -/
def recOld : JVal := .obj (JObj.ofList [("old", .num 0)])

/-- A one-line file holding a JSON array of two records. -/
def rawArr2 : String := "[\x7b\"a\":1\x7d,\x7b\"b\":2\x7d]"

/-- `json.loads` behaviour on `rawArr2`: the whole line parses to the
two-record array; nothing else parses. -/
def jlArr2 : String → Option JVal := fun s =>
  if s = rawArr2 then some (.arr (JArr.ofList [recA, recB])) else none

/-- `json.loads` behaviour for JSON-Lines inputs built from `recA`/`recB`
lines: each record line parses, anything else (whole multi-line contents
included) fails. -/
def jlTable : String → Option JVal := fun s =>
  if s = "\x7b\"a\":1\x7d" then some recA
  else if s = "\x7b\"b\":2\x7d" then some recB
  else none

/-- A five-line JSON-Lines file whose third line is invalid JSON. -/
def rawBad5 : String :=
  "\x7b\"a\":1\x7d\n\x7b\"b\":2\x7d\nOOPS\n\x7b\"a\":1\x7d\n\x7b\"b\":2\x7d"

/-- A three-line JSON-Lines file with an empty middle line. -/
def rawLines3 : String := "\x7b\"a\":1\x7d\n\n\x7b\"b\":2\x7d"

/-- A two-line JSON-Lines file. -/
def rawLines2 : String := "\x7b\"a\":1\x7d\n\x7b\"b\":2\x7d"

/-- A two-line file whose second line is invalid JSON. -/
def rawBadTail : String := "\x7b\"a\":1\x7d\nOOPS"

/-- A JSON array written across three lines; the whole document parses but
no single line does. -/
def rawML : String := "[\n\x7b\"a\":1\x7d\n]"

/-- `json.loads` behaviour on `rawML`: the whole document parses to a
one-record array, the middle line parses to that record, and the bracket
lines fail. -/
def jlML : String → Option JVal := fun s =>
  if s = rawML then some (.arr (JArr.ofList [recA]))
  else if s = "\x7b\"a\":1\x7d" then some recA
  else none

/-- The spec's filter example, first record: `{"severity":"High","name":"A"}`. -/
def exRec1 : List (String × JVal) := [("severity", .str "High"), ("name", .str "A")]

/-- The spec's filter example, second record: `{"severity":"low","name":"B"}`. -/
def exRec2 : List (String × JVal) := [("severity", .str "low"), ("name", .str "B")]

/-- A record with two distinct leaf paths, `a → b` and `a.b`, whose dotted
keys collide. -/
def c8rec : JObj :=
  JObj.ofList [("a", .obj (JObj.ofList [("b", .num 1)])), ("a.b", .num 2)]

/-- A nested record without list-valued branches and without key
collisions. -/
def c8w : JObj :=
  JObj.ofList [("x", .obj (JObj.ofList [("y", .num 1), ("z", .str "s")])), ("w", .null)]

/-! ## Basic lemmas about the embedded operations -/

theorem parseLines_eq_specPerLine (jloads : String → Option JVal) :
    ∀ ls, parseLines jloads ls = specPerLine jloads ls := by
  intro ls
  induction ls with
  | nil => rfl
  | cons l ls ih =>
    by_cases h : pyStrip l = ""
    · simp [parseLines, specPerLine, h, ih, List.filter_cons]
    · cases hj : jloads (pyStrip l) with
      | none =>
          simp [parseLines, specPerLine, h, hj, List.all_cons]
      | some item =>
          by_cases hall : (ls.all fun l =>
              decide (pyStrip l = "") || (jloads (pyStrip l)).isSome) = true
          · by_cases ho : item.isObj
            · simp [parseLines, specPerLine, h, hj, ih, hall, ho,
                List.filter_cons, List.filterMap_cons]
            · simp [parseLines, specPerLine, h, hj, ih, hall, ho,
                List.filter_cons, List.filterMap_cons]
          · simp [parseLines, specPerLine, h, hj, ih, hall, List.all_cons]

theorem parseLines_length_le (jloads : String → Option JVal) :
    ∀ ls data, parseLines jloads ls = some data → data.length ≤ ls.length := by
  intro ls
  induction ls with
  | nil => intro data h; simp [parseLines] at h; simp [← h]
  | cons l ls ih =>
    intro data h
    rw [parseLines] at h
    by_cases he : pyStrip l = ""
    · rw [if_pos he] at h
      exact Nat.le_succ_of_le (ih data h)
    · rw [if_neg he] at h
      cases hj : jloads (pyStrip l) with
      | none => simp [hj] at h
      | some item =>
          simp only [hj] at h
          cases hr : parseLines jloads ls with
          | none => simp [hr] at h
          | some rest =>
              simp only [hr] at h
              by_cases ho : item.isObj
              · simp only [if_pos ho, Option.some.injEq] at h
                subst h
                simpa using Nat.succ_le_succ (ih rest hr)
              · simp only [if_neg ho, Option.some.injEq] at h
                subst h
                exact Nat.le_succ_of_le (ih rest hr)

theorem parseLines_none_of_bad (jloads : String → Option JVal) :
    ∀ ls l, l ∈ ls → pyStrip l ≠ "" → jloads (pyStrip l) = none →
      parseLines jloads ls = none := by
  intro ls
  induction ls with
  | nil => intro l h; cases h
  | cons a ls ih =>
    intro l hmem hne hnone
    rw [parseLines]
    rcases List.mem_cons.mp hmem with rfl | htail
    · rw [if_neg hne, hnone]
    · by_cases he : pyStrip a = ""
      · rw [if_pos he]; exact ih l htail hne hnone
      · rw [if_neg he]
        cases hj : jloads (pyStrip a) with
        | none => rfl
        | some item => rw [ih l htail hne hnone]

theorem cacheGet_cacheSet_self (p : String) (v : List JVal) :
    ∀ c, cacheGet (cacheSet c p v) p = some v := by
  intro c
  induction c with
  | nil => simp [cacheSet, cacheGet]
  | cons kv rest ih =>
    rw [cacheSet]
    by_cases h : kv.1 == p
    · rw [if_pos h]; simp [cacheGet]
    · rw [if_neg h, cacheGet, if_neg h]; exact ih

theorem cacheGet_cacheExtend_self (p : String) (v : List JVal) :
    ∀ c, cacheGet (cacheExtend c p v) p = some ((cacheGet c p).getD [] ++ v) := by
  intro c
  induction c with
  | nil => simp [cacheExtend, cacheGet]
  | cons kv rest ih =>
    rw [cacheExtend]
    by_cases h : kv.1 == p
    · rw [if_pos h]
      have : kv.1 = p := by simpa using h
      simp [cacheGet, this]
    · rw [if_neg h, cacheGet, if_neg h, cacheGet, if_neg h]; exact ih

theorem matchesFilters_iff (filters : List (String × String))
    (item : List (String × JVal)) :
    matchesFilters filters item = true ↔ filterSpecKeeps filters item := by
  unfold matchesFilters filterSpecKeeps
  rw [List.all_eq_true]
  constructor
  · intro h cf hmem hne
    have hcf := h cf hmem
    rwa [if_pos hne] at hcf
  · intro h cf hmem
    by_cases hne : cf.2 = ""
    · simp [hne]
    · rw [if_pos hne]
      exact h cf hmem hne

/-! ## The claims -/

/-- C9: applying `filter_data` twice with the same filter map equals
applying it once, and the result depends only on the input list and the
filter map (in particular not on the ignored `desired_columns` argument). -/
theorem filter_data_idempotent_and_pure :
    (∀ data filters cols,
        filter_data (filter_data data filters cols) filters cols =
          filter_data data filters cols) ∧
    (∀ data filters cols cols',
        filter_data data filters cols = filter_data data filters cols') := by
  constructor
  · intro data filters cols
    exact List.filter_eq_self.mpr fun a ha => List.of_mem_filter ha
  · intro data filters cols cols'
    rfl

/-- C10: `filter_data` returns a subsequence of its input — kept records
are records of the input, duplicates survive, and relative order is
preserved (no reordering, no synthesis). -/
theorem filter_data_sublist :
    ∀ data filters cols, List.Sublist (filter_data data filters cols) data := by
  intro data filters cols
  exact List.filter_sublist data

/-- C7: a record is kept by `filter_data` iff it is an input record that,
for every column with a non-empty filter string, has a lowered string form
(missing column = empty string) containing the lowered filter substring;
on the spec's example with filter `severity=high`, only the record with
severity `High` survives. -/
theorem filter_data_spec_characterization :
    (∀ data filters cols item,
        item ∈ filter_data data filters cols ↔
          item ∈ data ∧ filterSpecKeeps filters item) ∧
    filter_data [exRec1, exRec2] [("severity", "high")] [] = [exRec1] := by
  constructor
  · intro data filters cols item
    rw [filter_data, List.mem_filter, matchesFilters_iff]
  · rfl

/-- C4: a full (non-incremental) load whose content fails whole-document
parsing and that has some non-empty line failing to parse as JSON fails as
a whole: the outcome is an error, and the cache is left untouched (no
partial record list is produced). -/
theorem load_json_full_line_mode_fails_closed :
    ∀ (jloads : String → Option JVal) (cache : Cache) (p raw : String) (rc : Nat),
      jloads (pyStrip raw) = none →
      (∃ l ∈ pySplitlines (pyStrip raw), pyStrip l ≠ "" ∧ jloads (pyStrip l) = none) →
      isErr (load_json jloads cache p raw rc false).1 = true ∧
        (load_json jloads cache p raw rc false).2 = cache := by
  intro jloads cache p raw rc hdoc hbad
  obtain ⟨l, hmem, hne, hnone⟩ := hbad
  have hpl := parseLines_none_of_bad jloads (pySplitlines (pyStrip raw)) l hmem hne hnone
  rw [load_json]
  simp [hdoc, hpl, isErr]

/-- Witness for C4: a five-line JSON-Lines file whose third line is
invalid JSON fails as a whole instead of yielding the four valid records. -/
theorem load_json_full_line_mode_fails_closed_witness :
    isErr (load_json jlTable [] "log.json" rawBad5 0 false).1 = true ∧
      (load_json jlTable [] "log.json" rawBad5 0 false).2 = [] :=
  load_json_full_line_mode_fails_closed jlTable [] "log.json" rawBad5 0 rfl
    ⟨"OOPS", by decide, by decide, rfl⟩

/-- C6: when the whole content parses as a JSON array whose elements are
all mappings, a full load returns exactly those records in order, with
`total_lines` the stripped content's line count, and caches them under
the path. -/
theorem load_json_whole_doc_array_roundtrip :
    ∀ (jloads : String → Option JVal) (cache : Cache) (p raw : String) (rc : Nat)
      (items : JArr),
      jloads (pyStrip raw) = some (.arr items) →
      (JArr.toList items).all JVal.isObj = true →
      load_json jloads cache p raw rc false =
        (.ok (JArr.toList items, (pySplitlines (pyStrip raw)).length),
          cacheSet cache p (JArr.toList items)) := by
  intro jloads cache p raw rc items hdoc hall
  rw [load_json]
  simp [hdoc, hall]

/-- Witness for C6: a one-line array of two records loads as those two
records with `total_lines = 1`. -/
theorem load_json_whole_doc_array_roundtrip_witness :
    load_json jlArr2 [] "p" rawArr2 0 false =
      (.ok ([recA, recB], 1), [("p", [recA, recB])]) :=
  load_json_whole_doc_array_roundtrip jlArr2 [] "p" rawArr2 0
    (JArr.ofList [recA, recB]) rfl rfl

/-- C1 counterexample: an automatic (periodic) refresh whose incremental
load fails surfaces a modal error box (`messagebox.showerror` in the
`except` branch of `refresh_table`), contradicting the claim that
automatic refresh failures never surface modally. -/
theorem refresh_table_auto_failure_shows_modal :
    (refresh_table jlNone [] "p" "a\nb" [] [] true 1).1 =
      [.statusText "Error: Error loading JSON: invalid JSON on a new line",
       .modalError "Failed to load JSON from p: Error loading JSON: invalid JSON on a new line",
       .logEntry "Failed to refresh table for p: Error loading JSON: invalid JSON on a new line"] ∧
    ((refresh_table jlNone [] "p" "a\nb" [] [] true 1).1.any UIEffect.isModal) = true :=
  ⟨rfl, rfl⟩

/-- C1 amended: every refresh failure — automatic or manual alike — is
surfaced as updated status text, an explicit modal notification, and a log
entry; automatic refresh failures are not exempt from the modal. -/
theorem refresh_table_failure_surface_uniform :
    ∀ (jloads : String → Option JVal) (cache : Cache) (p raw : String)
      (filters : List (String × String)) (cols : List String)
      (auto : Bool) (rc : Nat) (e : String) (cache' : Cache),
      load_json jloads cache p raw rc auto = (.error e, cache') →
      (refresh_table jloads cache p raw filters cols auto rc).1 =
        [.statusText ("Error: " ++ e),
         .modalError ("Failed to load JSON from " ++ p ++ ": " ++ e),
         .logEntry ("Failed to refresh table for " ++ p ++ ": " ++ e)] := by
  intro jloads cache p raw filters cols auto rc e cache' h
  simp [refresh_table, h]

/-- Witness for the amended C1 at a concrete failing automatic refresh. -/
theorem refresh_table_failure_surface_uniform_witness :
    (refresh_table jlNone [] "p" "a\nb" [] ["severity"] true 1).1 =
      [.statusText ("Error: " ++ "Error loading JSON: invalid JSON on a new line"),
       .modalError ("Failed to load JSON from " ++ "p" ++ ": " ++
         "Error loading JSON: invalid JSON on a new line"),
       .logEntry ("Failed to refresh table for " ++ "p" ++ ": " ++
         "Error loading JSON: invalid JSON on a new line")] :=
  refresh_table_failure_surface_uniform jlNone [] "p" "a\nb" [] ["severity"] true 1
    "Error loading JSON: invalid JSON on a new line" [] rfl

/-- C2 counterexample: a one-line file holding a JSON array of two
mappings loads successfully, caching two records under the path while the
stripped content has a single line — the cached list is longer than the
total line count. -/
theorem load_json_cache_exceeds_line_count :
    (load_json jlArr2 [] "p" rawArr2 0 false).1 = .ok ([recA, recB], 1) ∧
    cacheGet (load_json jlArr2 [] "p" rawArr2 0 false).2 "p" = some [recA, recB] ∧
    (pySplitlines (pyStrip rawArr2)).length < [recA, recB].length :=
  ⟨rfl, rfl, by decide⟩

/-- C2 amended: after a successful full load that used the line-oriented
fallback the cached list has at most `total_lines` records; after a
successful incremental load with seen count `N > 0`, a prior cache entry
of at most `N` records, and a file of at least `N` lines, the cached list
still has at most `total_lines` records.  (A whole-document array load
caches the array's records, which can outnumber the lines.) -/
theorem load_json_cache_length_bounded :
    (∀ (jloads : String → Option JVal) (cache : Cache) (p raw : String) (rc : Nat)
        (data : List JVal) (total : Nat) (cache' : Cache),
      jloads (pyStrip raw) = none →
      load_json jloads cache p raw rc false = (.ok (data, total), cache') →
      cacheGet cache' p = some data ∧ data.length ≤ total) ∧
    (∀ (jloads : String → Option JVal) (cache : Cache) (p raw : String) (N : Nat)
        (data : List JVal) (total : Nat) (cache' : Cache) (old : List JVal),
      0 < N →
      cacheGet cache p = some old →
      old.length ≤ N →
      N ≤ (pySplitlines (pyStrip raw)).length →
      load_json jloads cache p raw N true = (.ok (data, total), cache') →
      ∃ l, cacheGet cache' p = some l ∧ l.length ≤ total) := by
  constructor
  · intro jloads cache p raw rc data total cache' hdoc h
    rw [load_json] at h
    simp only [Bool.false_and, Bool.and_eq_true, decide_eq_true_eq, if_false,
      Bool.false_eq_true, hdoc] at h
    cases hpl : parseLines jloads (pySplitlines (pyStrip raw)) with
    | none => simp [hpl] at h
    | some d =>
        simp only [hpl] at h
        by_cases hd : d.isEmpty
        · simp [hd] at h
        · simp only [hd, Bool.false_eq_true, if_false, Prod.mk.injEq,
            Except.ok.injEq] at h
          obtain ⟨⟨hd1, ht⟩, hc⟩ := h
          subst hd1; subst ht; subst hc
          refine ⟨cacheGet_cacheSet_self p d cache, ?_⟩
          exact parseLines_length_le jloads _ d hpl
  · intro jloads cache p raw N data total cache' old hN hold holdlen hNle h
    rw [load_json] at h
    simp only [hN, decide_eq_true_eq, if_pos, Bool.true_and, decide_eq_true hN] at h
    cases hpl : parseLines jloads ((pySplitlines (pyStrip raw)).drop N) with
    | none => simp [hpl] at h
    | some d =>
        simp only [hpl, Prod.mk.injEq, Except.ok.injEq] at h
        obtain ⟨⟨hd1, ht⟩, hc⟩ := h
        subst hd1; subst ht; subst hc
        refine ⟨old ++ d, ?_, ?_⟩
        · rw [cacheGet_cacheExtend_self, hold]; rfl
        · have hdlen := parseLines_length_le jloads _ d hpl
          rw [List.length_drop] at hdlen
          rw [List.length_append]
          omega

/-- Witness for the amended C2: a three-line JSON-Lines load caches two
records (≤ 3 lines), and an incremental load on top of one seen line
leaves a two-record cache (≤ 2 lines). -/
theorem load_json_cache_length_bounded_witness :
    (cacheGet [("p", [recA, recB])] "p" = some [recA, recB] ∧
      ([recA, recB] : List JVal).length ≤ 3) ∧
    (∃ l, cacheGet [("p", [recA, recB])] "p" = some l ∧ l.length ≤ 2) := by
  constructor
  · exact load_json_cache_length_bounded.1 jlTable [] "p" rawLines3 0 [recA, recB] 3
      [("p", [recA, recB])] rfl rfl
  · exact load_json_cache_length_bounded.2 jlTable [("p", [recA])] "p" rawLines2 1
      [recB] 2 [("p", [recA, recB])] [recA] (by decide) rfl (by decide) (by decide) rfl

/-- C3 counterexample: with previously-seen count `N = 0`, a partial load
does not follow the incremental per-line contract — on a one-line file
whose single line parses to a JSON array (not a mapping), the per-line
rules yield no records, yet the load returns the array's two records via
whole-document parsing and replaces (rather than extends) the cache. -/
theorem load_json_partial_zero_is_full_load :
    load_json jlArr2 [("p", [recOld])] "p" rawArr2 0 true =
      (.ok ([recA, recB], 1), [("p", [recA, recB])]) ∧
    specPerLine jlArr2 (pySplitlines (pyStrip rawArr2)) = some [] ∧
    ([recA, recB] : List JVal) ≠ [] :=
  ⟨rfl, rfl, by simp⟩

/-- C3 amended: for previously-seen count `N > 0`, an incremental load
reads only the lines after index `N`, parses them under the line-oriented
per-line rules, returns exactly those records with the new total line
count, and appends them to the path's cache entry, leaving the prior
records as an untouched prefix; zero new lines yields the empty list and
the current total.  (With `N = 0` the load degenerates to a full load.) -/
theorem load_json_incremental_contract :
    ∀ (jloads : String → Option JVal) (cache : Cache) (p raw : String) (N : Nat),
      0 < N →
      ((specPerLine jloads ((pySplitlines (pyStrip raw)).drop N) = none →
          isErr (load_json jloads cache p raw N true).1 = true ∧
          (load_json jloads cache p raw N true).2 = cache) ∧
       (∀ newRecs,
          specPerLine jloads ((pySplitlines (pyStrip raw)).drop N) = some newRecs →
          load_json jloads cache p raw N true =
            (.ok (newRecs, (pySplitlines (pyStrip raw)).length),
              cacheExtend cache p newRecs) ∧
          ∀ old, cacheGet cache p = some old →
            cacheGet (load_json jloads cache p raw N true).2 p =
              some (old ++ newRecs)) ∧
       ((pySplitlines (pyStrip raw)).drop N = [] →
          load_json jloads cache p raw N true =
            (.ok ([], (pySplitlines (pyStrip raw)).length), cacheExtend cache p []))) := by
  intro jloads cache p raw N hN
  have hspec := parseLines_eq_specPerLine jloads ((pySplitlines (pyStrip raw)).drop N)
  refine ⟨?_, ?_, ?_⟩
  · intro hnone
    rw [load_json]
    simp [decide_eq_true hN, hspec, hnone, isErr]
  · intro newRecs hsome
    have hload : load_json jloads cache p raw N true =
        (.ok (newRecs, (pySplitlines (pyStrip raw)).length),
          cacheExtend cache p newRecs) := by
      rw [load_json]
      simp [decide_eq_true hN, hspec, hsome]
    refine ⟨hload, ?_⟩
    intro old hold
    rw [hload]
    rw [cacheGet_cacheExtend_self, hold]
    rfl
  · intro hdrop
    have hsome : specPerLine jloads ((pySplitlines (pyStrip raw)).drop N) = some [] := by
      rw [hdrop]; rfl
    rw [load_json]
    simp [decide_eq_true hN, hspec, hsome]

/-- Witness for the amended C3: with one line already seen, appending a
second line loads exactly that line's record and appends it to the cache. -/
theorem load_json_incremental_contract_witness :
    load_json jlTable [("p", [recA])] "p" rawLines2 1 true =
      (.ok ([recB], 2), [("p", [recA, recB])]) ∧
    cacheGet (load_json jlTable [("p", [recA])] "p" rawLines2 1 true).2 "p" =
      some ([recA] ++ [recB]) := by
  have h := (load_json_incremental_contract jlTable [("p", [recA])] "p" rawLines2 1
    (by decide)).2.1 [recB] rfl
  exact ⟨h.1, h.2 [recA] rfl⟩

/-- C5 counterexample: with previously-seen count `0`, an "incremental"
load whose new lines include unparseable ones (`[` and `]`) does not
abort: whole-document parsing succeeds and the cache entry is replaced,
losing the previously cached record. -/
theorem load_json_partial_zero_loses_cache :
    load_json jlML [("p", [recOld])] "p" rawML 0 true =
      (.ok ([recA], 3), [("p", [recA])]) ∧
    ("[" ∈ pySplitlines (pyStrip rawML) ∧ pyStrip "[" ≠ "" ∧
      jlML (pyStrip "[") = none) ∧
    cacheGet (load_json jlML [("p", [recOld])] "p" rawML 0 true).2 "p" =
      some [recA] ∧
    pyStr recA ≠ pyStr recOld :=
  ⟨rfl, ⟨by decide, by decide, rfl⟩, rfl, by decide⟩

/-- C5 amended: for previously-seen count `N > 0`, an incremental load one
of whose new lines fails to parse aborts with an error and leaves the
cache exactly as it was. -/
theorem load_json_incremental_bad_line_aborts :
    ∀ (jloads : String → Option JVal) (cache : Cache) (p raw : String) (N : Nat),
      0 < N →
      (∃ l ∈ (pySplitlines (pyStrip raw)).drop N,
        pyStrip l ≠ "" ∧ jloads (pyStrip l) = none) →
      isErr (load_json jloads cache p raw N true).1 = true ∧
        (load_json jloads cache p raw N true).2 = cache := by
  intro jloads cache p raw N hN hbad
  obtain ⟨l, hmem, hne, hnone⟩ := hbad
  have hpl := parseLines_none_of_bad jloads _ l hmem hne hnone
  rw [load_json]
  simp [decide_eq_true hN, hpl, isErr]

/-- Witness for the amended C5: one seen line, one new invalid line — the
incremental load errors and the cache is untouched. -/
theorem load_json_incremental_bad_line_aborts_witness :
    isErr (load_json jlTable [("p", [recA])] "p" rawBadTail 1 true).1 = true ∧
      (load_json jlTable [("p", [recA])] "p" rawBadTail 1 true).2 = [("p", [recA])] :=
  load_json_incremental_bad_line_aborts jlTable [("p", [recA])] "p" rawBadTail 1
    (by decide) ⟨"OOPS", by decide, by decide, rfl⟩

/-! ## Lemmas about `pyDict` and the flattener -/

theorem mem_pyDictInsert (acc : List (String × JVal)) (k : String) (v : JVal)
    (kv : String × JVal) (h : kv ∈ pyDictInsert acc k v) : kv ∈ acc ∨ kv = (k, v) := by
  rw [pyDictInsert] at h
  by_cases hany : acc.any (fun kv => kv.1 == k)
  · rw [if_pos hany] at h
    obtain ⟨orig, horig, hf⟩ := List.mem_map.mp h
    by_cases he : orig.1 == k
    · right; rw [if_pos he] at hf; exact hf.symm
    · left; rw [if_neg he] at hf; rw [← hf]; exact horig
  · rw [if_neg hany] at h
    rcases List.mem_append.mp h with h | h
    · exact Or.inl h
    · exact Or.inr (List.mem_singleton.mp h)

theorem pyDict_subset :
    ∀ (items acc : List (String × JVal)) (kv : String × JVal),
      kv ∈ List.foldl (fun acc kv => pyDictInsert acc kv.1 kv.2) acc items →
      kv ∈ acc ∨ kv ∈ items := by
  intro items
  induction items with
  | nil => intro acc kv h; exact Or.inl h
  | cons a items ih =>
    intro acc kv h
    rcases ih (pyDictInsert acc a.1 a.2) kv h with h' | h'
    · rcases mem_pyDictInsert acc a.1 a.2 kv h' with h'' | h''
      · exact Or.inl h''
      · right; rw [h'']; exact List.mem_cons_self a items
    · exact Or.inr (List.mem_cons_of_mem a h')

theorem mem_pyDict (items : List (String × JVal)) (kv : String × JVal)
    (h : kv ∈ pyDict items) : kv ∈ items := by
  rcases pyDict_subset items [] kv h with h' | h'
  · cases h'
  · exact h'

theorem keysOf_pyDictInsert (acc : List (String × JVal)) (k : String) (v : JVal) :
    keysOf (pyDictInsert acc k v) =
      if k ∈ keysOf acc then keysOf acc else keysOf acc ++ [k] := by
  have hiff : (acc.any fun kv => kv.1 == k) = true ↔ k ∈ keysOf acc := by
    rw [List.any_eq_true]
    constructor
    · rintro ⟨kv, hkv, he⟩
      have : kv.1 = k := by simpa using he
      rw [keysOf, List.mem_map]
      exact ⟨kv, hkv, this⟩
    · intro hk
      obtain ⟨kv, hkv, he⟩ := List.mem_map.mp hk
      exact ⟨kv, hkv, by simpa using he⟩
  rw [pyDictInsert]
  by_cases hany : acc.any (fun kv => kv.1 == k)
  · rw [if_pos hany, if_pos (hiff.mp hany)]
    rw [keysOf, keysOf, List.map_map]
    refine List.map_congr_left ?_
    intro kv hkv
    by_cases he : kv.1 == k
    · have he' : kv.1 = k := by simpa using he
      simp [he, he']
    · have he' : ¬kv.1 = k := by simpa using he
      simp [he, he']
  · have hk : k ∉ keysOf acc := fun hmem => hany (hiff.mpr hmem)
    rw [if_neg hany, if_neg hk, keysOf, keysOf, List.map_append]
    rfl

theorem pyDict_keys_aux :
    ∀ (items acc : List (String × JVal)), (keysOf acc).Nodup →
      (keysOf (List.foldl (fun acc kv => pyDictInsert acc kv.1 kv.2) acc items)).Nodup ∧
      ∀ a, a ∈ keysOf (List.foldl (fun acc kv => pyDictInsert acc kv.1 kv.2) acc items) ↔
        a ∈ keysOf acc ∨ a ∈ keysOf items := by
  intro items
  induction items with
  | nil =>
      intro acc hnd
      exact ⟨hnd, fun a => by simp [keysOf]⟩
  | cons b items ih =>
    intro acc hnd
    have hstep := keysOf_pyDictInsert acc b.1 b.2
    by_cases hb : b.1 ∈ keysOf acc
    · rw [if_pos hb] at hstep
      obtain ⟨h1, h2⟩ := ih (pyDictInsert acc b.1 b.2) (by rw [hstep]; exact hnd)
      refine ⟨h1, fun a => ?_⟩
      rw [List.foldl_cons, h2 a, hstep]
      simp only [keysOf, List.map_cons, List.mem_cons] at *
      constructor
      · rintro (h | h)
        · exact Or.inl h
        · exact Or.inr (Or.inr h)
      · rintro (h | rfl | h)
        · exact Or.inl h
        · exact Or.inl hb
        · exact Or.inr h
    · rw [if_neg hb] at hstep
      have hnd' : (keysOf (pyDictInsert acc b.1 b.2)).Nodup := by
        rw [hstep]
        simp [List.nodup_append, hnd, hb]
      obtain ⟨h1, h2⟩ := ih (pyDictInsert acc b.1 b.2) hnd'
      refine ⟨h1, fun a => ?_⟩
      rw [List.foldl_cons, h2 a, hstep]
      simp only [keysOf, List.map_cons, List.mem_cons, List.mem_append,
        List.mem_singleton] at *
      tauto

theorem pyDict_keys_nodup (items : List (String × JVal)) :
    (keysOf (pyDict items)).Nodup :=
  (pyDict_keys_aux items [] (by simp [keysOf])).1

theorem mem_keysOf_pyDict (items : List (String × JVal)) (a : String) :
    a ∈ keysOf (pyDict items) ↔ a ∈ keysOf items := by
  rw [pyDict, (pyDict_keys_aux items [] (by simp [keysOf])).2 a]
  simp [keysOf]

theorem length_pyDict (items : List (String × JVal)) :
    (pyDict items).length = (keysOf items).dedup.length := by
  have h1 : (pyDict items).length = (keysOf (pyDict items)).length := by
    rw [keysOf, List.length_map]
  have h2 : (keysOf (pyDict items)).toFinset = (keysOf items).toFinset := by
    ext a
    simp only [List.mem_toFinset]
    exact mem_keysOf_pyDict items a
  rw [h1, ← List.toFinset_card_of_nodup (pyDict_keys_nodup items), h2,
    List.card_toFinset]

mutual

theorem flattenEntry_values_not_obj :
    ∀ (sep nk : String) (v : JVal), ∀ kv ∈ flattenEntry sep nk v, kv.2.isObj = false
  | sep, nk, .obj fields => by
      intro kv hkv
      rw [flattenEntry] at hkv
      exact flattenItems_values_not_obj sep nk fields kv (mem_pyDict _ kv hkv)
  | sep, nk, .null => by
      intro kv hkv
      rw [show flattenEntry sep nk .null = [(nk, .null)] from rfl] at hkv
      rw [List.mem_singleton.mp hkv]
      rfl
  | sep, nk, .bool b => by
      intro kv hkv
      rw [show flattenEntry sep nk (.bool b) = [(nk, .bool b)] from rfl] at hkv
      rw [List.mem_singleton.mp hkv]
      rfl
  | sep, nk, .num n => by
      intro kv hkv
      rw [show flattenEntry sep nk (.num n) = [(nk, .num n)] from rfl] at hkv
      rw [List.mem_singleton.mp hkv]
      rfl
  | sep, nk, .str s => by
      intro kv hkv
      rw [show flattenEntry sep nk (.str s) = [(nk, .str s)] from rfl] at hkv
      rw [List.mem_singleton.mp hkv]
      rfl
  | sep, nk, .arr xs => by
      intro kv hkv
      rw [show flattenEntry sep nk (.arr xs) = [(nk, .arr xs)] from rfl] at hkv
      rw [List.mem_singleton.mp hkv]
      rfl

theorem flattenItems_values_not_obj :
    ∀ (sep p : String) (d : JObj), ∀ kv ∈ flattenItems sep p d, kv.2.isObj = false
  | sep, p, .nil => by
      intro kv hkv
      rw [flattenItems] at hkv
      cases hkv
  | sep, p, .cons k v rest => by
      intro kv hkv
      rw [flattenItems] at hkv
      rcases List.mem_append.mp hkv with h | h
      · exact flattenEntry_values_not_obj sep _ v kv h
      · exact flattenItems_values_not_obj sep p rest kv h

end

mutual

theorem mem_keysOf_flattenEntry :
    ∀ (sep nk : String) (v : JVal) (a : String),
      a ∈ keysOf (flattenEntry sep nk v) ↔ a ∈ leafKeysEntry sep nk v
  | sep, nk, .obj fields, a => by
      rw [flattenEntry, leafKeysEntry, mem_keysOf_pyDict]
      exact mem_keysOf_flattenItems sep nk fields a
  | sep, nk, .null, a => Iff.rfl
  | sep, nk, .bool b, a => Iff.rfl
  | sep, nk, .num n, a => Iff.rfl
  | sep, nk, .str s, a => Iff.rfl
  | sep, nk, .arr xs, a => Iff.rfl

theorem mem_keysOf_flattenItems :
    ∀ (sep p : String) (d : JObj) (a : String),
      a ∈ keysOf (flattenItems sep p d) ↔ a ∈ leafKeysFields sep p d
  | sep, p, .nil, a => Iff.rfl
  | sep, p, .cons k v rest, a => by
      rw [flattenItems, leafKeysFields, keysOf, List.map_append, List.mem_append,
        List.mem_append]
      exact or_congr (mem_keysOf_flattenEntry sep _ v a)
        (mem_keysOf_flattenItems sep p rest a)

end

/-- C8 counterexample: the record `{"a": {"b": 1}, "a.b": 2}` has no
list-valued branch and two distinct leaf paths (`a → b` and `a.b`), yet
its flattened form has a single dotted key — `dict(items)` collapses the
colliding dotted keys. -/
theorem flatten_dict_key_collision :
    noListsObj c8rec = true ∧
    (flatten_dict c8rec "" ".").length = 1 ∧
    ((leafPaths c8rec).dedup).length = 2 ∧
    keysOf (flatten_dict c8rec "" ".") = ["a.b"] :=
  ⟨rfl, rfl, by decide, rfl⟩

/-- C8 amended: for a record with no list-valued branches, flattening
yields no mapping-typed values, and the number of dotted keys equals the
number of distinct dotted leaf-path key strings (leaf paths whose joined
keys coincide collapse into one entry, the last value winning). -/
theorem flatten_dict_no_nested_and_key_count :
    ∀ d : JObj, noListsObj d = true →
      ((flatten_dict d "" ".").all (fun kv => !kv.2.isObj) = true) ∧
      (flatten_dict d "" ".").length = (leafKeysFields "." "" d).dedup.length := by
  intro d hnl
  constructor
  · rw [List.all_eq_true]
    intro kv hkv
    have := flattenItems_values_not_obj "." "" d kv (mem_pyDict _ kv hkv)
    simp [this]
  · rw [flatten_dict, length_pyDict]
    have h2 : (keysOf (flattenItems "." "" d)).toFinset =
        (leafKeysFields "." "" d).toFinset := by
      ext a
      simp only [List.mem_toFinset]
      exact mem_keysOf_flattenItems "." "" d a
    rw [← List.card_toFinset, h2, List.card_toFinset]

/-- Witness for the amended C8 at a concrete nested record. -/
theorem flatten_dict_no_nested_and_key_count_witness :
    noListsObj c8w = true ∧
      (((flatten_dict c8w "" ".").all (fun kv => !kv.2.isObj) = true) ∧
        (flatten_dict c8w "" ".").length = (leafKeysFields "." "" c8w).dedup.length) :=
  ⟨rfl, flatten_dict_no_nested_and_key_count c8w rfl⟩

end LogViewer
